import Mathlib

/-!
Shallow embedding of the pastatime session turn-coordination engine
(`src/main.go`), together with proofs of the specification's claims.

Modelling conventions:
* `time.Time` timestamps and `time.Duration` values are modelled as `Int`
  (nanoseconds); a call to `time.Now()` becomes an explicit `now : Int`
  argument of the operation that performs it.
* `Duration.Milliseconds()` is Go's truncating integer division by 10^6,
  modelled with `Int.tdiv` (truncation toward zero, as in Go).
* The `clients` map of a `Session` is modelled as the list of its keys in
  insertion order (the code inserts into the map and appends to
  `clientOrder` together, and deletes from both together, so the key set
  always equals the `clientOrder` set).
* `handleCommand` returns, besides the new session state, a `Bool`
  recording whether the path invoked `go s.broadcastState()`.
* The disconnect cleanup returns, besides the new session state, a `Bool`
  recording whether the path reaches the `session.broadcastState()` call
  of `src/main.go` line 292. That call is made while `clientsMux` (locked
  at line 273) is still held, and `broadcastState` re-acquires the same
  non-reentrant mutex at line 412, a self-deadlock: in the running
  program the call never completes, no broadcast is delivered, and the
  handler never terminates. The `Bool` therefore marks "cleanup attempted
  the broadcast (and deadlocks there)", not a delivered broadcast; the
  state component reflects lines 274-291, which complete before the call.
-/

namespace PastaTime

/-- The `Lap` struct (`src/main.go` lines 39-43). -/
structure Lap where
  client : String
  time : Int
  timeMs : Int
deriving DecidableEq

/-- The mutable per-session state (`src/main.go` lines 18-32).
`clients` holds the keys of the Go `clients` map in insertion order. -/
structure Session where
  clients : List String
  clientOrder : List String
  activeClientID : String
  turnsCompleted : Nat
  isRunning : Bool
  startTime : Int
  elapsed : Int
  lastLapTime : Int
  lastLapClient : String
  lapHistory : List Lap
deriving DecidableEq

/-- The session state built by `handleNewSession` (`src/main.go` lines 138-149);
the zero value of `startTime` is modelled as `0`. -/
def initialSession : Session :=
  { clients := []
    clientOrder := []
    activeClientID := ""
    turnsCompleted := 0
    isRunning := false
    startTime := 0
    elapsed := 0
    lastLapTime := 0
    lastLapClient := ""
    lapHistory := [] }

/-- The elapsed-time sample computed by `handleCommand`, `broadcastState` and
`sendStateToClient`: `s.elapsed + time.Since(s.startTime)` when running,
`s.elapsed` otherwise (`src/main.go` lines 314-319, 420-425, 481-486). -/
def elapsedNow (s : Session) (now : Int) : Int :=
  if s.isRunning then s.elapsed + (now - s.startTime) else s.elapsed

/-- Index into a roster list the way the Go code indexes `clientOrder`;
every use in the code is guarded so the default is never reached. -/
def nth (l : List String) (n : Nat) : String :=
  (l[n]?).getD ""

/-- The connect half of `handleSessionWS` (`src/main.go` lines 229-247):
the fresh participant id is appended to the clients map and to
`clientOrder`, and if `activeClientID` is empty it becomes
`clientOrder[0]`. The id itself is produced by the `generateName` retry
loop, which only yields non-empty names that are fresh in the session. -/
def connect (s : Session) (id : String) : Session :=
  let clients := s.clients ++ [id]
  let clientOrder := s.clientOrder ++ [id]
  if s.activeClientID = "" ∧ 0 < clientOrder.length then
    { s with clients := clients, clientOrder := clientOrder,
             activeClientID := nth clientOrder 0 }
  else
    { s with clients := clients, clientOrder := clientOrder }

/-- The disconnect cleanup of `handleSessionWS` (`src/main.go` lines 273-294):
remove the participant from the map and from `clientOrder` (first
occurrence), and if it held control hand control to the new
`clientOrder[0]` (or clear it). The returned `Bool` records whether this
path reaches the `session.broadcastState()` call of line 292; in the
program that call self-deadlocks (it runs while `clientsMux`, locked at
line 273, is still held, and `broadcastState` re-locks it at line 412),
so a `true` flag means the cleanup attempts a broadcast and hangs there —
no broadcast is delivered and the handler never terminates. The state
component models lines 274-291, which complete before that call. -/
def disconnect (s : Session) (id : String) : Session × Bool :=
  let clients := s.clients.erase id
  let clientOrder := s.clientOrder.erase id
  if s.activeClientID = id then
    if 0 < clientOrder.length then
      ({ s with clients := clients, clientOrder := clientOrder,
                activeClientID := nth clientOrder 0 }, true)
    else
      ({ s with clients := clients, clientOrder := clientOrder,
                activeClientID := "" }, true)
  else
    ({ s with clients := clients, clientOrder := clientOrder }, false)

/-- The `cmd == "next"` branch of `Session.handleCommand`
(`src/main.go` lines 312-380). -/
def handleNext (s : Session) (clientID : String) (now : Int) : Session :=
  let currentLap := elapsedNow s now
  let s1 : Session :=
    { s with
      lastLapTime := currentLap
      lastLapClient := clientID
      turnsCompleted := s.turnsCompleted + 1
      lapHistory := s.lapHistory ++
        [{ client := clientID, time := currentLap,
           timeMs := Int.tdiv currentLap 1000000 }]
      isRunning := true
      startTime := now
      elapsed := 0 }
  if 1 < s1.clientOrder.length then
    if s1.clientOrder.length ≤ s1.turnsCompleted then
      { s1 with isRunning := false, elapsed := 0, lastLapTime := 0,
                lastLapClient := "", turnsCompleted := 0 }
    else
      match s1.clientOrder.findIdx? (fun id => id == s1.activeClientID) with
      | some i =>
          { s1 with
            activeClientID := nth s1.clientOrder ((i + 1) % s1.clientOrder.length) }
      | none =>
          if 0 < s1.clientOrder.length then
            { s1 with activeClientID := nth s1.clientOrder 0 }
          else
            { s1 with activeClientID := "" }
  else
    { s1 with isRunning := true, startTime := now, elapsed := 0,
              lastLapTime := 0, lastLapClient := "", turnsCompleted := 0 }

/-- `Session.handleCommand` (`src/main.go` lines 303-408). The returned
`Bool` records whether the path called `go s.broadcastState()`: the
unauthorized early return does not, every authorized path (including an
unrecognized command falling through the `switch`) does. -/
def handleCommand (s : Session) (clientID cmd : String) (now : Int) :
    Session × Bool :=
  if clientID ≠ s.activeClientID then
    (s, false)
  else if cmd = "next" then
    (handleNext s clientID now, true)
  else if cmd = "start" then
    (if s.isRunning then s else { s with startTime := now, isRunning := true },
     true)
  else if cmd = "pause" then
    (if s.isRunning then
       { s with elapsed := s.elapsed + (now - s.startTime), isRunning := false }
     else s, true)
  else if cmd = "reset" then
    ({ s with isRunning := false, elapsed := 0, lastLapTime := 0,
              lastLapClient := "", lapHistory := [], turnsCompleted := 0 },
     true)
  else
    (s, true)

/-- The session-wide fields of the `baseMsg` snapshot built once per
broadcast (`src/main.go` lines 437-445). -/
structure BaseMsg where
  time : Int
  lapTime : Int
  lastLapClient : String
  lapHistory : List Lap
  activeClient : String
  clients : List String
deriving DecidableEq

/-- A personalized outbound `update` frame (`src/main.go` lines 447-452):
the base snapshot plus the recipient's own id. -/
structure UpdateMsg where
  time : Int
  lapTime : Int
  lastLapClient : String
  lapHistory : List Lap
  activeClient : String
  clients : List String
  yourId : String
deriving DecidableEq

/-- The base snapshot computed by `Session.broadcastState`
(`src/main.go` lines 419-445). -/
def baseMsg (s : Session) (now : Int) : BaseMsg :=
  { time := Int.tdiv (elapsedNow s now) 1000000
    lapTime := Int.tdiv s.lastLapTime 1000000
    lastLapClient := s.lastLapClient
    lapHistory := s.lapHistory
    activeClient := s.activeClientID
    clients := s.clients }

/-- Copying the base message and adding `yourId` for one recipient
(`src/main.go` lines 447-452). -/
def personalize (b : BaseMsg) (id : String) : UpdateMsg :=
  { time := b.time
    lapTime := b.lapTime
    lastLapClient := b.lastLapClient
    lapHistory := b.lapHistory
    activeClient := b.activeClient
    clients := b.clients
    yourId := id }

/-- `Session.broadcastState` (`src/main.go` lines 411-467): one base
snapshot, then one personalized message per currently connected
participant, paired with its recipient. -/
def broadcastState (s : Session) (now : Int) : List (String × UpdateMsg) :=
  s.clients.map (fun id => (id, personalize (baseMsg s now) id))

/-- One externally triggered operation on a session: a connect, a
disconnect, or an inbound command frame (with the instant at which it is
handled). -/
inductive Op where
  | connect (id : String)
  | disconnect (id : String)
  | command (clientID cmd : String) (now : Int)
deriving DecidableEq

/-- Apply one operation, keeping only the resulting state. -/
def applyOp (s : Session) : Op → Session
  | .connect id => connect s id
  | .disconnect id => (disconnect s id).1
  | .command clientID cmd now => (handleCommand s clientID cmd now).1

/-- Apply a sequence of operations in order. -/
def applyOps (s : Session) (ops : List Op) : Session :=
  ops.foldl applyOp s

/-- Every connect in the trace carries a non-empty participant id, as
guaranteed by the `generateName` retry loop in `handleSessionWS`. -/
def connectIdsOk : List Op → Bool
  | [] => true
  | .connect id :: rest => !(id == "") && connectIdsOk rest
  | _ :: rest => connectIdsOk rest

/-- The controller invariant of the spec: `activeClientID` is empty iff the
roster is empty, and when non-empty it is a member of the roster. -/
def CtrlInv (s : Session) : Prop :=
  (s.activeClientID = "" ↔ s.clientOrder = []) ∧
  (s.activeClientID ≠ "" → s.activeClientID ∈ s.clientOrder)

/-- Strengthened form used for the induction: additionally no roster entry
is the empty string. -/
def CtrlInvAux (s : Session) : Prop :=
  CtrlInv s ∧ "" ∉ s.clientOrder

/-- A session with three participants A, B, C (in connection order), used
as concrete scenario input; its controller is A. -/
def sABC : Session := connect (connect (connect initialSession "A") "B") "C"

/-- A session with two participants A and B; its controller is A. -/
def sAB : Session := connect (connect initialSession "A") "B"

/-- Claim C3: a command (start, pause, reset or next — indeed any command)
issued by a participant other than the current controller leaves the whole
session state unchanged, and the handler returns without sending anything
to the sender (in particular no error): the early return does not even
trigger a broadcast. -/
theorem C3_unauthorized_noop (s : Session) (clientID cmd : String) (now : Int)
    (h : clientID ≠ s.activeClientID) :
    handleCommand s clientID cmd now = (s, false) := by
  simp [handleCommand, h]

/-- Witness for C3 on a concrete session: participant B of `sABC`
(controller A) issues `start` and nothing changes. -/
theorem C3_unauthorized_noop_witness :
    handleCommand sABC "B" "start" 7 = (sABC, false) :=
  C3_unauthorized_noop sABC "B" "start" 7 (by decide)

/-- Claim C6: `reset` issued by the controller stops the timer, zeroes the
accumulated time and the last-turn fields, empties the lap history and
resets the turn counter, leaving the roster and the controller (and every
other field) unchanged, from any prior state. -/
theorem C6_reset (s : Session) (now : Int) :
    (handleCommand s s.activeClientID "reset" now).1 =
      { s with isRunning := false, elapsed := 0, lastLapTime := 0,
               lastLapClient := "", lapHistory := [], turnsCompleted := 0 } := by
  simp [handleCommand]

/-- Claim C4: when the controller disconnects, control passes to the
participant now occupying roster index 0 (or is cleared when the roster
became empty); when a non-controller disconnects, only the roster entries
change and every other field is untouched. -/
theorem C4_disconnect_reassign (s : Session) (id : String) :
    (s.activeClientID = id →
        (disconnect s id).1.activeClientID =
          (if s.clientOrder.erase id = [] then ""
           else nth (s.clientOrder.erase id) 0) ∧
        (disconnect s id).1.clientOrder = s.clientOrder.erase id) ∧
    (s.activeClientID ≠ id →
        (disconnect s id).1 =
          { s with clients := s.clients.erase id,
                   clientOrder := s.clientOrder.erase id }) := by
  constructor
  · intro h
    by_cases hlen : 0 < (s.clientOrder.erase id).length
    · have hne : s.clientOrder.erase id ≠ [] := List.length_pos.mp hlen
      simp [disconnect, h, hlen, hne]
    · have hnil : s.clientOrder.erase id = [] := by
        rcases List.eq_nil_or_concat (s.clientOrder.erase id) with hnil | ⟨l, a, hl⟩
        · exact hnil
        · exact absurd (by simp [hl]) hlen
      simp [disconnect, h, hnil]
  · intro h
    simp [disconnect, h]

/-- Witness for C4: in `sABC` (roster [A,B,C], controller A), A
disconnecting hands control to B; B disconnecting changes only the roster. -/
theorem C4_disconnect_reassign_witness :
    ((disconnect sABC "A").1.activeClientID =
        (if sABC.clientOrder.erase "A" = [] then ""
         else nth (sABC.clientOrder.erase "A") 0) ∧
      (disconnect sABC "A").1.clientOrder = sABC.clientOrder.erase "A") ∧
    (disconnect sABC "B").1 =
      { sABC with clients := sABC.clients.erase "B",
                  clientOrder := sABC.clientOrder.erase "B" } :=
  ⟨(C4_disconnect_reassign sABC "A").1 (by decide),
   (C4_disconnect_reassign sABC "B").2 (by decide)⟩

/-- Claim C5: an advance issued by the controller of a session with more
than one participant that makes the turn counter reach the roster size
ends with the timer stopped, accumulated time and last-turn fields
cleared, the counter back at 0, and the controller pointer unchanged. -/
theorem C5_rotation_complete (s : Session) (now : Int)
    (h1 : 1 < s.clientOrder.length)
    (h2 : s.clientOrder.length ≤ s.turnsCompleted + 1) :
    (handleCommand s s.activeClientID "next" now).1.isRunning = false ∧
    (handleCommand s s.activeClientID "next" now).1.elapsed = 0 ∧
    (handleCommand s s.activeClientID "next" now).1.lastLapTime = 0 ∧
    (handleCommand s s.activeClientID "next" now).1.lastLapClient = "" ∧
    (handleCommand s s.activeClientID "next" now).1.turnsCompleted = 0 ∧
    (handleCommand s s.activeClientID "next" now).1.activeClientID
      = s.activeClientID := by
  simp [handleCommand, handleNext, h1, h2]

/-- The state of `sAB` after one advance by controller A: the roster has
two participants, the turn counter is 1, the controller is B, so the next
advance completes the rotation. -/
def c5s : Session := (handleCommand sAB "A" "next" 3).1

/-- Witness for C5: in the two-participant session `c5s` (turn counter 1),
the advance issued by controller B completes the rotation. -/
theorem C5_rotation_complete_witness :
    (handleCommand c5s c5s.activeClientID "next" 9).1.isRunning = false ∧
    (handleCommand c5s c5s.activeClientID "next" 9).1.elapsed = 0 ∧
    (handleCommand c5s c5s.activeClientID "next" 9).1.lastLapTime = 0 ∧
    (handleCommand c5s c5s.activeClientID "next" 9).1.lastLapClient = "" ∧
    (handleCommand c5s c5s.activeClientID "next" 9).1.turnsCompleted = 0 ∧
    (handleCommand c5s c5s.activeClientID "next" 9).1.activeClientID
      = c5s.activeClientID :=
  C5_rotation_complete c5s 9 (by decide) (by decide)

/-- Claim C8 evaluated at the failing inputs, in the session `sAB` with
roster [A,B] and controller A. Disconnecting the non-controller B removes
B from the roster but the cleanup never reaches a broadcast, so no
broadcast is triggered at all, against the claim. Disconnecting the
controller A does reach the `session.broadcastState()` call of
`src/main.go` line 292 (the flag is `true`) — but that call is made while
`clientsMux` (locked at line 273) is still held and `broadcastState`
re-acquires the same non-reentrant mutex at line 412, a self-deadlock: no
broadcast is delivered and the handler never terminates, also against the
claim. -/
theorem C8_cleanup_bug :
    sAB.activeClientID = "A" ∧
    (disconnect sAB "B").1.clientOrder = ["A"] ∧
    (disconnect sAB "B").2 = false ∧
    (disconnect sAB "A").2 = true := by decide

/-- Claim C9: within one broadcast, every personalized message carries its
own recipient's id in `yourId`, and any two messages agree on every
session-wide field. -/
theorem C9_broadcast_personalized (s : Session) (now : Int)
    (p q : String × UpdateMsg)
    (hp : p ∈ broadcastState s now) (hq : q ∈ broadcastState s now) :
    p.2.yourId = p.1 ∧ q.2.yourId = q.1 ∧
    p.2.time = q.2.time ∧ p.2.lapTime = q.2.lapTime ∧
    p.2.lastLapClient = q.2.lastLapClient ∧
    p.2.lapHistory = q.2.lapHistory ∧
    p.2.activeClient = q.2.activeClient ∧
    p.2.clients = q.2.clients := by
  simp only [broadcastState, List.mem_map] at hp hq
  obtain ⟨a, _, rfl⟩ := hp
  obtain ⟨b, _, rfl⟩ := hq
  simp [personalize]

/-- The message of `sAB`'s broadcast addressed to A. -/
def c9pA : String × UpdateMsg := ("A", personalize (baseMsg sAB 5) "A")

/-- The message of `sAB`'s broadcast addressed to B. -/
def c9pB : String × UpdateMsg := ("B", personalize (baseMsg sAB 5) "B")

/-- Witness for C9 on the concrete two-participant broadcast of `sAB`. -/
theorem C9_broadcast_personalized_witness :
    c9pA.2.yourId = c9pA.1 ∧ c9pB.2.yourId = c9pB.1 ∧
    c9pA.2.time = c9pB.2.time ∧ c9pA.2.lapTime = c9pB.2.lapTime ∧
    c9pA.2.lastLapClient = c9pB.2.lastLapClient ∧
    c9pA.2.lapHistory = c9pB.2.lapHistory ∧
    c9pA.2.activeClient = c9pB.2.activeClient ∧
    c9pA.2.clients = c9pB.2.clients :=
  C9_broadcast_personalized sAB 5 c9pA c9pB (by decide) (by decide)

/-- Claim C10: an advance issued by the controller appends exactly one
entry to the lap history — the controller's id together with the elapsed
time sampled at that instant — whatever the roster size (including a
single-participant roster); no other command appends to the history
(start/pause/unknown leave it unchanged, reset clears it). -/
theorem C10_history_append (s : Session) (cmd : String) (now : Int)
    (h : cmd ≠ "next") :
    (handleCommand s s.activeClientID "next" now).1.lapHistory =
      s.lapHistory ++
        [{ client := s.activeClientID, time := elapsedNow s now,
           timeMs := Int.tdiv (elapsedNow s now) 1000000 }] ∧
    ((handleCommand s s.activeClientID cmd now).1.lapHistory = s.lapHistory ∨
     (handleCommand s s.activeClientID cmd now).1.lapHistory = []) := by
  constructor
  · simp only [handleCommand, handleNext]
    repeat' split
    all_goals simp_all
  · by_cases h1 : cmd = "start"
    · subst h1
      left
      simp only [handleCommand]
      repeat' split
      all_goals simp_all
    · by_cases h2 : cmd = "pause"
      · subst h2
        left
        simp only [handleCommand]
        repeat' split
        all_goals simp_all
      · by_cases h3 : cmd = "reset"
        · subst h3
          right
          simp [handleCommand]
        · left
          simp [handleCommand, h, h1, h2, h3]

/-- State of `sABC` after the first advance, issued by controller A. -/
def c2s1 : Session := (handleCommand sABC "A" "next" 10).1

/-- State after the second advance, issued by the then-current controller. -/
def c2s2 : Session := (handleCommand c2s1 c2s1.activeClientID "next" 20).1

/-- State after the third advance, issued by the then-current controller. -/
def c2s3 : Session := (handleCommand c2s2 c2s2.activeClientID "next" 30).1

/-- Counterexample to claim C2 as stated: in the [A,B,C] scenario the
third advance takes the rotation-complete branch, which does not move the
controller pointer, so control ends at C — not back at A. -/
theorem C2_rotation_cex :
    c2s1.activeClientID = "B" ∧ c2s2.activeClientID = "C" ∧
    c2s3.activeClientID = "C" ∧ ¬ c2s3.activeClientID = "A" := by decide

/-- Claim C2 as amended: with roster [A,B,C], controller A and turn
counter 0, the first advance moves control to B and the second to C; the
third advance completes the rotation, leaving control at C (the issuer of
the third advance, not A), with the turn counter back at 0, the last-lap
fields cleared, and a lap history of exactly three entries whose client
fields are, in order, the participants who held control at each advance.
The timer state at the start and the advance instants are arbitrary. -/
theorem C2_rotation_amended (r0 : Bool) (st0 e0 t1 t2 t3 : Int) :
    let s0 : Session :=
      { clients := ["A", "B", "C"], clientOrder := ["A", "B", "C"],
        activeClientID := "A", turnsCompleted := 0, isRunning := r0,
        startTime := st0, elapsed := e0, lastLapTime := 0,
        lastLapClient := "", lapHistory := [] }
    let s1 := (handleCommand s0 s0.activeClientID "next" t1).1
    let s2 := (handleCommand s1 s1.activeClientID "next" t2).1
    let s3 := (handleCommand s2 s2.activeClientID "next" t3).1
    s1.activeClientID = "B" ∧ s2.activeClientID = "C" ∧
    s3.activeClientID = "C" ∧ s3.turnsCompleted = 0 ∧
    s3.lastLapClient = "" ∧ s3.lastLapTime = 0 ∧
    s3.lapHistory.map Lap.client = ["A", "B", "C"] := by
  intro s0 s1 s2 s3
  refine ⟨rfl, rfl, rfl, rfl, rfl, rfl, rfl⟩

/-- Membership of the roster index function, under an in-bounds guard. -/
theorem nth_mem {l : List String} {n : Nat} (h : n < l.length) :
    nth l n ∈ l := by
  unfold nth
  rw [List.getElem?_eq_getElem h]
  exact List.getElem_mem h

/-- `CtrlInvAux` only looks at the controller pointer and the roster. -/
theorem ctrlInvAux_of_fields {s s' : Session}
    (ha : s'.activeClientID = s.activeClientID)
    (ho : s'.clientOrder = s.clientOrder) (h : CtrlInvAux s) :
    CtrlInvAux s' := by
  unfold CtrlInvAux CtrlInv at *
  rw [ha, ho]
  exact h

/-- The connect path preserves the controller invariant, given that the
generated participant name is non-empty. -/
theorem ctrlInvAux_connect (s : Session) (id : String) (hid : id ≠ "")
    (h : CtrlInvAux s) : CtrlInvAux (connect s id) := by
  obtain ⟨⟨hiff, hmem⟩, hnm⟩ := h
  by_cases ha : s.activeClientID = ""
  · have horder : s.clientOrder = [] := hiff.mp ha
    simp [connect, ha, horder, CtrlInvAux, CtrlInv, nth, hid, Ne.symm hid]
  · have hord : s.clientOrder ≠ [] := fun hh => ha (hiff.mpr hh)
    have hmem' : s.activeClientID ∈ s.clientOrder := hmem ha
    simp only [connect, ha, false_and, if_neg, reduceIte]
    refine ⟨⟨?_, fun _ => List.mem_append_left _ hmem'⟩, ?_⟩
    · constructor
      · intro hh
        exact absurd hh ha
      · intro hh
        exact absurd hh (by simp)
    · simp [hnm, Ne.symm hid]

/-- The disconnect cleanup preserves the controller invariant. -/
theorem ctrlInvAux_disconnect (s : Session) (id : String)
    (h : CtrlInvAux s) : CtrlInvAux (disconnect s id).1 := by
  obtain ⟨⟨hiff, hmem⟩, hnm⟩ := h
  have hnm' : "" ∉ s.clientOrder.erase id :=
    fun hh => hnm (List.mem_of_mem_erase hh)
  by_cases ha : s.activeClientID = id
  · by_cases hlen : 0 < (s.clientOrder.erase id).length
    · have hmm : nth (s.clientOrder.erase id) 0 ∈ s.clientOrder.erase id :=
        nth_mem hlen
      have hne : nth (s.clientOrder.erase id) 0 ≠ "" :=
        fun hh => hnm' (hh ▸ hmm)
      have hord : s.clientOrder.erase id ≠ [] := List.length_pos.mp hlen
      simp only [disconnect, ha, if_pos, hlen, reduceIte]
      exact ⟨⟨iff_of_false hne hord, fun _ => hmm⟩, hnm'⟩
    · have hnil : s.clientOrder.erase id = [] := by
        cases hh : s.clientOrder.erase id with
        | nil => rfl
        | cons a l => exact absurd (by simp [hh]) hlen
      simp only [disconnect, ha, hlen, reduceIte]
      simp [CtrlInvAux, CtrlInv, hnil]
  · simp only [disconnect, ha, reduceIte]
    by_cases hae : s.activeClientID = ""
    · have horder : s.clientOrder = [] := hiff.mp hae
      simp [CtrlInvAux, CtrlInv, hae, horder]
    · have hmem' : s.activeClientID ∈ s.clientOrder.erase id :=
        (List.mem_erase_of_ne ha).mpr (hmem hae)
      have hord : s.clientOrder.erase id ≠ [] := List.ne_nil_of_mem hmem'
      exact ⟨⟨iff_of_false hae hord, fun _ => hmem'⟩, hnm'⟩

/-- Command handling preserves the controller invariant. -/
theorem ctrlInvAux_command (s : Session) (clientID cmd : String) (now : Int)
    (h : CtrlInvAux s) : CtrlInvAux (handleCommand s clientID cmd now).1 := by
  by_cases hg : clientID ≠ s.activeClientID
  · simpa [handleCommand, hg] using h
  · have hnm : "" ∉ s.clientOrder := h.2
    simp only [handleCommand, hg, reduceIte]
    by_cases hn : cmd = "next"
    · simp only [hn, reduceIte]
      unfold handleNext
      by_cases h1 : 1 < s.clientOrder.length
      · simp only [h1, reduceIte]
        by_cases h2 : s.clientOrder.length ≤ s.turnsCompleted + 1
        · simp only [h2, reduceIte]
          exact ctrlInvAux_of_fields rfl rfl h
        · simp only [h2, reduceIte]
          have hpos : 0 < s.clientOrder.length := by omega
          cases hidx : s.clientOrder.findIdx?
              (fun id => id == s.activeClientID) with
          | some i =>
            have hk : (i + 1) % s.clientOrder.length < s.clientOrder.length :=
              Nat.mod_lt _ hpos
            have hmm := nth_mem hk
            have hne : nth s.clientOrder
                ((i + 1) % s.clientOrder.length) ≠ "" :=
              fun hh => hnm (hh ▸ hmm)
            exact ⟨⟨iff_of_false hne (List.length_pos.mp hpos),
              fun _ => hmm⟩, hnm⟩
          | none =>
            simp only [hpos, reduceIte]
            have hmm := nth_mem hpos
            have hne : nth s.clientOrder 0 ≠ "" := fun hh => hnm (hh ▸ hmm)
            exact ⟨⟨iff_of_false hne (List.length_pos.mp hpos),
              fun _ => hmm⟩, hnm⟩
      · simp only [h1, reduceIte]
        exact ctrlInvAux_of_fields rfl rfl h
    · simp only [hn, reduceIte]
      by_cases hs : cmd = "start"
      · simp only [hs, reduceIte]
        by_cases hr : s.isRunning
        · simpa [hr] using h
        · simp only [hr, reduceIte]
          exact ctrlInvAux_of_fields rfl rfl h
      · simp only [hs, reduceIte]
        by_cases hp : cmd = "pause"
        · simp only [hp, reduceIte]
          by_cases hr : s.isRunning
          · simp only [hr, reduceIte]
            exact ctrlInvAux_of_fields rfl rfl h
          · simpa [hr] using h
        · simp only [hp, reduceIte]
          by_cases hrs : cmd = "reset"
          · simp only [hrs, reduceIte]
            exact ctrlInvAux_of_fields rfl rfl h
          · simpa [hrs] using h

/-- The controller invariant holds along any operation sequence whose
connects carry non-empty ids. -/
theorem ctrlInvAux_applyOps (ops : List Op) :
    ∀ s : Session, CtrlInvAux s → connectIdsOk ops = true →
      CtrlInvAux (applyOps s ops) := by
  induction ops with
  | nil => exact fun s h _ => h
  | cons op rest ih =>
    intro s h hok
    cases op with
    | connect id =>
      have hok' : ¬ id = "" ∧ connectIdsOk rest = true := by
        simpa [connectIdsOk, Bool.and_eq_true] using hok
      exact ih _ (ctrlInvAux_connect s id hok'.1 h) hok'.2
    | disconnect id =>
      exact ih _ (ctrlInvAux_disconnect s id h)
        (by simpa [connectIdsOk] using hok)
    | command c cmd t =>
      exact ih _ (ctrlInvAux_command s c cmd t h)
        (by simpa [connectIdsOk] using hok)

/-- Claim C1: after any sequence of connect, disconnect and command
operations (with the non-empty participant names `generateName` produces),
the controller pointer is empty exactly when the roster is empty, and is a
roster member whenever it is non-empty. -/
theorem C1_controller_invariant (ops : List Op)
    (h : connectIdsOk ops = true) :
    CtrlInv (applyOps initialSession ops) :=
  (ctrlInvAux_applyOps ops initialSession
    (by simp [CtrlInvAux, CtrlInv, initialSession]) h).1

/-- A concrete mixed trace: two connects, a command, then the controller
disconnects. -/
def c1ops : List Op :=
  [Op.connect "A", Op.connect "B", Op.command "A" "start" 3,
   Op.disconnect "A"]

/-- Witness for C1 on the concrete trace `c1ops`. -/
theorem C1_controller_invariant_witness :
    CtrlInv (applyOps initialSession c1ops) :=
  C1_controller_invariant c1ops (by decide)

/-- The single-participant session obtained by A connecting alone. -/
def sA1 : Session := connect initialSession "A"

/-- The instant at which an operation samples the clock, when it does:
only command handling calls `time.Now()`. -/
def opTime : Op → Option Int
  | .command _ _ now => some now
  | _ => none

/-- The clock instants of a trace are non-decreasing, starting no earlier
than `t` and ending no later than `tEnd` (wall-clock monotonicity). -/
def timeOrderedB (t : Int) : List Op → Int → Bool
  | [], tEnd => decide (t ≤ tEnd)
  | .command _ _ tc :: rest, tEnd => decide (t ≤ tc) && timeOrderedB tc rest tEnd
  | _ :: rest, tEnd => timeOrderedB t rest tEnd

/-- No command of the trace is `next` or `reset` — the two commands that
zero the accumulated time. -/
def noTimerResetB : List Op → Bool
  | [] => true
  | .command _ cmd _ :: rest =>
      !(cmd == "next") && !(cmd == "reset") && noTimerResetB rest
  | _ :: rest => noTimerResetB rest

/-- The timer sanity invariant: the accumulated duration is non-negative
and, while running, the start timestamp is not in the future of `t`. -/
def TimerInv (s : Session) (t : Int) : Prop :=
  0 ≤ s.elapsed ∧ (s.isRunning = true → s.startTime ≤ t)

/-- The timer invariant is stable as the clock advances. -/
theorem timerInv_mono {s : Session} {t t' : Int} (h : TimerInv s t)
    (ht : t ≤ t') : TimerInv s t' :=
  ⟨h.1, fun hr => le_trans (h.2 hr) ht⟩

/-- Connecting does not touch the timer fields. -/
theorem timerInv_connect {s : Session} {t : Int} (id : String)
    (h : TimerInv s t) : TimerInv (connect s id) t := by
  simp only [connect]
  split <;> exact h

/-- Disconnecting does not touch the timer fields. -/
theorem timerInv_disconnect {s : Session} {t : Int} (id : String)
    (h : TimerInv s t) : TimerInv (disconnect s id).1 t := by
  simp only [disconnect]
  repeat' split
  all_goals exact h

/-- Every command handled at instant `tc` re-establishes the timer
invariant at `tc`. -/
theorem timerInv_command {s : Session} (clientID cmd : String) {tc : Int}
    (h : TimerInv s tc) : TimerInv ((handleCommand s clientID cmd tc).1) tc := by
  obtain ⟨h1, h2⟩ := h
  simp only [handleCommand, handleNext, TimerInv]
  repeat' split
  all_goals try simp_all
  all_goals try omega

/-- Sampling elapsed time later never yields a smaller value (on an
unchanged state). -/
theorem elapsedNow_time_mono (s : Session) {t t' : Int} (h : t ≤ t') :
    elapsedNow s t ≤ elapsedNow s t' := by
  unfold elapsedNow
  split <;> omega

/-- Connecting does not change the sampled elapsed time. -/
theorem elapsedNow_connect (s : Session) (id : String) (t : Int) :
    elapsedNow (connect s id) t = elapsedNow s t := by
  simp only [connect]
  split <;> rfl

/-- Disconnecting does not change the sampled elapsed time. -/
theorem elapsedNow_disconnect (s : Session) (id : String) (t : Int) :
    elapsedNow (disconnect s id).1 t = elapsedNow s t := by
  simp only [disconnect]
  repeat' split
  all_goals rfl

/-- A command other than `next` and `reset`, handled at instant `tc`,
leaves the elapsed time sampled at `tc` unchanged (start and pause move
time between the running segment and the accumulator without losing any). -/
theorem elapsedNow_command (s : Session) (clientID cmd : String) (tc : Int)
    (hn : cmd ≠ "next") (hr : cmd ≠ "reset") :
    elapsedNow ((handleCommand s clientID cmd tc).1) tc = elapsedNow s tc := by
  simp only [handleCommand]
  repeat' split
  all_goals try rfl
  all_goals simp_all [elapsedNow]

/-- The timer invariant holds after any time-ordered trace. -/
theorem timerInv_applyOps (ops : List Op) :
    ∀ (s : Session) (t tEnd : Int), TimerInv s t →
      timeOrderedB t ops tEnd = true → TimerInv (applyOps s ops) tEnd := by
  induction ops with
  | nil =>
    intro s t tEnd h hord
    exact timerInv_mono h (by simpa [timeOrderedB] using hord)
  | cons op rest ih =>
    intro s t tEnd h hord
    cases op with
    | connect id =>
      exact ih _ _ _ (timerInv_connect id h)
        (by simpa [timeOrderedB] using hord)
    | disconnect id =>
      exact ih _ _ _ (timerInv_disconnect id h)
        (by simpa [timeOrderedB] using hord)
    | command c cmd tc =>
      obtain ⟨hle, hord'⟩ : t ≤ tc ∧ timeOrderedB tc rest tEnd = true := by
        simpa [timeOrderedB, Bool.and_eq_true] using hord
      exact ih _ _ _ (timerInv_command c cmd (timerInv_mono h hle)) hord'

/-- The sampled elapsed time is non-negative under the timer invariant. -/
theorem elapsedNow_nonneg {s : Session} {t : Int} (h : TimerInv s t) :
    0 ≤ elapsedNow s t := by
  obtain ⟨h1, h2⟩ := h
  unfold elapsedNow
  split
  · have := h2 (by assumption)
    omega
  · exact h1

/-- Along a time-ordered trace containing no `next` and no `reset`, the
sampled elapsed time never decreases. -/
theorem elapsedNow_mono_applyOps (ops : List Op) :
    ∀ (s : Session) (t tEnd : Int), timeOrderedB t ops tEnd = true →
      noTimerResetB ops = true →
      elapsedNow s t ≤ elapsedNow (applyOps s ops) tEnd := by
  induction ops with
  | nil =>
    intro s t tEnd hord _
    exact elapsedNow_time_mono s (by simpa [timeOrderedB] using hord)
  | cons op rest ih =>
    intro s t tEnd hord hnr
    cases op with
    | connect id =>
      have := ih (connect s id) t tEnd (by simpa [timeOrderedB] using hord)
        (by simpa [noTimerResetB] using hnr)
      calc elapsedNow s t = elapsedNow (connect s id) t :=
            (elapsedNow_connect s id t).symm
        _ ≤ _ := this
    | disconnect id =>
      have := ih (disconnect s id).1 t tEnd
        (by simpa [timeOrderedB] using hord)
        (by simpa [noTimerResetB] using hnr)
      calc elapsedNow s t = elapsedNow (disconnect s id).1 t :=
            (elapsedNow_disconnect s id t).symm
        _ ≤ _ := this
    | command c cmd tc =>
      obtain ⟨hle, hord'⟩ : t ≤ tc ∧ timeOrderedB tc rest tEnd = true := by
        simpa [timeOrderedB, Bool.and_eq_true] using hord
      obtain ⟨⟨hn, hr⟩, hnr'⟩ :
          (¬ cmd = "next" ∧ ¬ cmd = "reset") ∧ noTimerResetB rest = true := by
        simpa [noTimerResetB, Bool.and_eq_true, and_assoc] using hnr
      have hstep := elapsedNow_command s c cmd tc hn hr
      calc elapsedNow s t ≤ elapsedNow s tc := elapsedNow_time_mono s hle
        _ = elapsedNow ((handleCommand s c cmd tc).1) tc := hstep.symm
        _ ≤ _ := ih _ _ _ hord' hnr'

/-- The session reached by A connecting and starting the timer at 0. -/
def c7sA : Session :=
  applyOps initialSession [Op.connect "A", Op.command "A" "start" 0]

/-- The state after controller A issues an advance at instant 100. -/
def c7sB : Session := (handleCommand c7sA "A" "next" 100).1

/-- Counterexample to claim C7 as stated: `running` is true at both
samples, yet an intervening `next` (a controller command) restarts the
timer, so the elapsed value drops from 100 to 1 — elapsed is not
monotonically non-decreasing while running under arbitrary controller
commands. -/
theorem C7_elapsed_cex :
    c7sA.isRunning = true ∧ c7sB.isRunning = true ∧
    elapsedNow c7sA 100 = 100 ∧ elapsedNow c7sB 101 = 1 ∧
    ¬ elapsedNow c7sA 100 ≤ elapsedNow c7sB 101 := by decide

/-- Claim C7 as amended: the snapshot value equals
`accumulated + (now − startedAt)` when running and `accumulated`
otherwise; along any time-ordered trace from a fresh session — with no
restriction on which commands occur, `next` and `reset` included — the
sampled elapsed time is never negative; and it is monotonically
non-decreasing across successive samples provided no `advance` (`next`)
and no `reset` command — the two commands that zero the accumulator — is
applied between them (arbitrary `start`/`pause` commands, connects and
disconnects are allowed). The two provisos are independent: `ops` is any
time-ordered trace, and only the monotonicity trace `mops` is restricted. -/
theorem C7_elapsed_amended (ops mops : List Op) (t tEnd mt mtEnd : Int)
    (hord : timeOrderedB t ops tEnd = true)
    (hmord : timeOrderedB mt mops mtEnd = true)
    (hmnr : noTimerResetB mops = true) :
    (∀ (s : Session) (now : Int),
        (baseMsg s now).time =
          Int.tdiv (if s.isRunning = true then s.elapsed + (now - s.startTime)
                    else s.elapsed) 1000000) ∧
    0 ≤ elapsedNow (applyOps initialSession ops) tEnd ∧
    ∀ s0 : Session, elapsedNow s0 mt ≤ elapsedNow (applyOps s0 mops) mtEnd := by
  refine ⟨fun s now => rfl, ?_,
    fun s0 => elapsedNow_mono_applyOps mops s0 mt mtEnd hmord hmnr⟩
  have hinv : TimerInv initialSession t := ⟨le_refl 0, by simp [initialSession]⟩
  exact elapsedNow_nonneg (timerInv_applyOps ops initialSession t tEnd hinv hord)

/-- A time-ordered trace containing an advance and a reset, exercising the
unconditional nonnegativity conjunct. -/
def c7ops : List Op :=
  [Op.connect "A", Op.command "A" "start" 1, Op.command "A" "next" 4,
   Op.command "A" "reset" 7]

/-- A time-ordered trace with only start/pause commands, exercising the
monotonicity conjunct. -/
def c7mops : List Op :=
  [Op.connect "A", Op.command "A" "start" 1, Op.command "A" "pause" 5]

/-- Witness for the amended C7: nonnegativity on `c7ops` (which contains
a `next` and a `reset`) and monotonicity on `c7mops`. -/
theorem C7_elapsed_amended_witness :
    0 ≤ elapsedNow (applyOps initialSession c7ops) 10 ∧
    elapsedNow initialSession 0 ≤ elapsedNow (applyOps initialSession c7mops) 10 :=
  ⟨(C7_elapsed_amended c7ops c7mops 0 10 0 10 (by decide) (by decide)
      (by decide)).2.1,
   (C7_elapsed_amended c7ops c7mops 0 10 0 10 (by decide) (by decide)
      (by decide)).2.2 initialSession⟩

/-- Witness for C10: in the single-participant session `sA1`, the advance
by controller A still appends one history entry, while `reset` does not
append (it clears the history). -/
theorem C10_history_append_witness :
    (handleCommand sA1 sA1.activeClientID "next" 5).1.lapHistory =
      sA1.lapHistory ++
        [{ client := sA1.activeClientID, time := elapsedNow sA1 5,
           timeMs := Int.tdiv (elapsedNow sA1 5) 1000000 }] ∧
    ((handleCommand sA1 sA1.activeClientID "reset" 5).1.lapHistory
        = sA1.lapHistory ∨
     (handleCommand sA1 sA1.activeClientID "reset" 5).1.lapHistory = []) :=
  C10_history_append sA1 "reset" 5 (by decide)

end PastaTime
